import Mathlib

/-!
Shallow embedding of the YGODecklistTool core (rarity hierarchy resolver,
canonical deck ordering, upgrade classifier, and price cache) together with
proofs about the claims of its specification.

The embedding follows `src/yugioh_data.py`, `src/sort_utils.py`,
`src/pdf_overview.py` and `src/pricing/ygopro_prices.py`.  Python `dict`s are
modelled as association lists with unique keys, JSON payloads as an inductive
value type, machine floats as `Rat` (Python floats round-trip exactly through
`json` for the magnitudes involved), and Python's stdlib primitives
(`str.lower`, `str.strip`, `float(...)`, `int(...)`) as executable functions
that agree with CPython on the ASCII inputs the program manipulates
(restrictions are noted at each definition).  Network effects are passed in as
function parameters; file-system effects (reading/writing the JSON files) are
modelled as passing the serialized value through unchanged, which is what a
successful atomic write followed by a read does.
-/

namespace YGO

/-! ### Models of Python string primitives (ASCII fragment) -/

/-- Model of `str.lower` on one character (ASCII letters only; the repository
only lowercases ASCII frame/type labels and card names). -/
def charLower (c : Char) : Char :=
  if 65 ≤ c.toNat ∧ c.toNat ≤ 90 then Char.ofNat (c.toNat + 32) else c

/-- Model of `str.upper` on one character (ASCII letters only). -/
def charUpper (c : Char) : Char :=
  if 97 ≤ c.toNat ∧ c.toNat ≤ 122 then Char.ofNat (c.toNat - 32) else c

/-- Model of Python `str.lower` (and, on the ASCII strings handled by the
program, also of `str.casefold`). -/
def pyLower (s : String) : String := String.mk (s.toList.map charLower)

/-- Model of Python `str.upper`. -/
def pyUpper (s : String) : String := String.mk (s.toList.map charUpper)

/-- ASCII whitespace recognised by Python `str.strip()`. -/
def isPySpace (c : Char) : Bool :=
  c = ' ' || c = '\t' || c = '\n' || c = '\r' || c = '\x0b' || c = '\x0c'

/-- Model of Python `str.strip()` (ASCII whitespace fragment). -/
def pyStrip (s : String) : String :=
  String.mk (((s.toList.dropWhile isPySpace).reverse.dropWhile isPySpace).reverse)

/-- `listPrefixOf pat l` is true when `pat` is a prefix of `l`. -/
def listPrefixOf : List Char → List Char → Bool
  | [], _ => true
  | _ :: _, [] => false
  | a :: as, b :: bs => decide (a = b) && listPrefixOf as bs

/-- `listSubOf l pat` is true when `pat` occurs contiguously inside `l`;
models Python's `pat in l` on strings. -/
def listSubOf : List Char → List Char → Bool
  | [], pat => pat.isEmpty
  | a :: rest, pat => listPrefixOf pat (a :: rest) || listSubOf rest pat

/-- Model of Python `pat in s` (substring test). -/
def strContains (s pat : String) : Bool := listSubOf s.toList pat.toList

/-- Model of Python `s.startswith(pat)`. -/
def strStartsWith (s pat : String) : Bool := listPrefixOf pat.toList s.toList

/-- Model of Python `s.endswith(pat)`. -/
def strEndsWith (s pat : String) : Bool :=
  listPrefixOf pat.toList.reverse s.toList.reverse

/-- Model of `s[:-1]` on strings. -/
def strDropLast (s : String) : String := String.mk s.toList.dropLast

/-- Lexicographic comparison of character lists by code point; models
Python's `<=` on strings. -/
def listCharLe : List Char → List Char → Bool
  | [], _ => true
  | _ :: _, [] => false
  | a :: as, b :: bs => if a = b then listCharLe as bs else decide (a.toNat < b.toNat)

/-- Model of Python `<=` on strings (code-point lexicographic order). -/
def strLe (a b : String) : Bool := listCharLe a.toList b.toList

/-! ### Models of Python numeric-literal parsing -/

/-- Value of a list of ASCII digits. -/
def digitsVal (cs : List Char) : Nat :=
  cs.foldl (fun a c => a * 10 + (c.toNat - 48)) 0

/-- Strip one optional leading sign, returning the sign as `1` or `-1`. -/
def splitSign : List Char → Int × List Char
  | '+' :: r => (1, r)
  | '-' :: r => (-1, r)
  | r => (1, r)

/-- Unsigned decimal mantissa: digits with an optional decimal point
(`"12"`, `"12."`, `"12.5"`, `".5"`). -/
def parseMantissa (cs : List Char) : Option Rat :=
  let ip := cs.takeWhile Char.isDigit
  let rest := cs.dropWhile Char.isDigit
  match rest with
  | [] => if ip.isEmpty then none else some ((digitsVal ip : Int) : Rat)
  | '.' :: frac =>
    if frac.all Char.isDigit && !(ip.isEmpty && frac.isEmpty) then
      some ((digitsVal ip : Rat) + (digitsVal frac : Rat) / ((10 : Rat) ^ frac.length))
    else none
  | _ => none

/-- Signed exponent digits after `e`/`E`. -/
def parseExpDigits (cs : List Char) : Option Int :=
  let sgn := (splitSign cs).1
  let r := (splitSign cs).2
  if !r.isEmpty && r.all Char.isDigit then some (sgn * (digitsVal r : Nat)) else none

/-- Model of Python `float(str)` on finite plain decimal literals
(optional sign, digits, optional point, optional exponent, surrounding
whitespace).  CPython extras that the program never feeds it — `inf`, `nan`,
digit-group underscores, non-ASCII digits — are out of the modelled domain
and map to `none`. -/
def pyFloatOfString (s : String) : Option Rat :=
  let cs := (pyStrip s).toList
  let mant := cs.takeWhile fun c => !(decide (c = 'e') || decide (c = 'E'))
  let rest := cs.dropWhile fun c => !(decide (c = 'e') || decide (c = 'E'))
  let sgn := (splitSign mant).1
  let m := (splitSign mant).2
  match parseMantissa m with
  | none => none
  | some base =>
    match rest with
    | [] => some ((sgn : Rat) * base)
    | _ :: ecs =>
      match parseExpDigits ecs with
      | none => none
      | some e => some ((sgn : Rat) * base * (10 : Rat) ^ (e : Int))

/-- Model of Python `int(str)` (optional sign and ASCII digits, surrounding
whitespace allowed, leading zeros allowed; underscores and non-ASCII digits
are out of the modelled domain). -/
def pyIntOfString (s : String) : Option Int :=
  let cs := (pyStrip s).toList
  let sgn := (splitSign cs).1
  let r := (splitSign cs).2
  if !r.isEmpty && r.all Char.isDigit then some (sgn * (digitsVal r : Nat)) else none

/-! ### JSON values and Python `dict` access -/

/-- JSON values as produced by `json.loads` / consumed by `json.dump`
(`null`, booleans, finite numbers, strings, arrays, objects). -/
inductive JVal where
  | null
  | bool (b : Bool)
  | num (q : Rat)
  | str (s : String)
  | arr (elems : List JVal)
  | obj (fields : List (String × JVal))

/-- First-match association lookup; models `dict.get(key)` on a `dict`
with unique keys. -/
def assocGet {α : Type} : List (String × α) → String → Option α
  | [], _ => none
  | (k, v) :: rest, key => if k = key then some v else assocGet rest key

/-- Association lookup for integer keys; models `dict.get` on an id-keyed
`dict`. -/
def assocGetInt {α : Type} : List (Int × α) → Int → Option α
  | [], _ => none
  | (k, v) :: rest, key => if k = key then some v else assocGetInt rest key

/-- Model of Python `float(x)` on a JSON scalar (`float(True) = 1.0`,
`float(None)`/lists/dicts raise `TypeError`, strings parse as decimal
literals). -/
def pyFloatOfJVal : JVal → Option Rat
  | .null => none
  | .bool b => some (if b then 1 else 0)
  | .num q => some q
  | .str s => pyFloatOfString s
  | .arr _ => none
  | .obj _ => none

/-- Model of `float(x)` where `x` may be a missing dict entry (Python
`None`, raising `TypeError`). -/
def pyFloatOfOpt : Option JVal → Option Rat
  | none => none
  | some v => pyFloatOfJVal v

/-! ### `yugioh_data.py`: catalog, hierarchy classification, print filtering -/

/-- `PULL_RARITIES` from `yugioh_data.py`. -/
def PULL_RARITIES : List String := ["Short Print", "Super Short Print"]

/-- `RARITY_HIERARCHY_DEFAULT` from `yugioh_data.py`. -/
def RARITY_HIERARCHY_DEFAULT : String := "effect_monster"

/-- `FRAME_TYPE_TO_HIERARCHY_KEY` from `yugioh_data.py`. -/
def FRAME_TYPE_TO_HIERARCHY_KEY : List (String × String) :=
  [("normal", "normal_monster"),
   ("effect", "effect_monster"),
   ("spell", "spell"),
   ("trap", "trap"),
   ("fusion", "fusion"),
   ("synchro", "synchro"),
   ("xyz", "xyz"),
   ("link", "link"),
   ("ritual", "ritual"),
   ("token", "token"),
   ("pendulum_normal", "pendulum_normal"),
   ("normal_pendulum", "pendulum_normal"),
   ("pendulum_effect", "pendulum_effect"),
   ("effect_pendulum", "pendulum_effect"),
   ("pendulum_ritual", "pendulum_ritual"),
   ("ritual_pendulum", "pendulum_ritual"),
   ("pendulum_fusion", "pendulum_fusion"),
   ("fusion_pendulum", "pendulum_fusion"),
   ("pendulum_synchro", "pendulum_synchro"),
   ("synchro_pendulum", "pendulum_synchro"),
   ("pendulum_xyz", "pendulum_xyz"),
   ("xyz_pendulum", "pendulum_xyz")]

/-- One record of a card's `card_sets` list; `""` stands for a missing or
empty (falsy) field, which is how the source consumes these records. -/
structure PrintRec where
  set_code : String
  set_rarity : String
deriving DecidableEq

/-- The card-dict fields the core reads: `frameType`, `type` (as strings,
`""` when absent) and `card_sets`. -/
structure Card where
  frameType : String
  type : String
  card_sets : List PrintRec
deriving DecidableEq

/-- A rarity hierarchy: `dict[str, int]` mapping rarity label to weight. -/
abbrev Hierarchy := List (String × Int)

/-- `dict.get(key, default)` on a hierarchy. -/
def dictGetInt (h : Hierarchy) (key : String) (default : Int) : Int :=
  (assocGet h key).getD default

/-- `_pendulum_key_from_type` from `yugioh_data.py` (the label is already
lowercased by the caller). -/
def _pendulum_key_from_type (type_label : String) : Option String :=
  if !strContains type_label "pendulum" then none
  else if strContains type_label "normal" then some "pendulum_normal"
  else if strContains type_label "ritual" then some "pendulum_ritual"
  else if strContains type_label "fusion" then some "pendulum_fusion"
  else if strContains type_label "synchro" then some "pendulum_synchro"
  else if strContains type_label "xyz" then some "pendulum_xyz"
  else if strContains type_label "effect" then some "pendulum_effect"
  else some "pendulum_effect"

/-- `_key_from_type_label` from `yugioh_data.py`. -/
def _key_from_type_label (type_label : String) : Option String :=
  match _pendulum_key_from_type type_label with
  | some k => some k
  | none =>
    if strContains type_label "spell" then some "spell"
    else if strContains type_label "trap" then some "trap"
    else if strContains type_label "token" then some "token"
    else if strContains type_label "ritual" then some "ritual"
    else if strContains type_label "fusion" then some "fusion"
    else if strContains type_label "synchro" then some "synchro"
    else if strContains type_label "xyz" then some "xyz"
    else if strContains type_label "link" then some "link"
    else if strContains type_label "normal" then some "normal_monster"
    else if strContains type_label "effect" then some "effect_monster"
    else none

/-- `rarity_hierarchy_key_for_card` from `yugioh_data.py`; `none` models a
falsy `card` argument. -/
def rarity_hierarchy_key_for_card (card : Option Card) : String :=
  match card with
  | none => RARITY_HIERARCHY_DEFAULT
  | some c =>
    let frame_type := pyLower c.frameType
    match (if frame_type ≠ "" then assocGet FRAME_TYPE_TO_HIERARCHY_KEY frame_type else none) with
    | some key => key
    | none =>
      let type_label := pyLower c.type
      match _key_from_type_label type_label with
      | some key => key
      | none => RARITY_HIERARCHY_DEFAULT

/-- `select_rarity_hierarchy` from `yugioh_data.py`;
`next(iter(hierarchies.values()), {})` is the first table or `{}`. -/
def select_rarity_hierarchy (hierarchies : List (String × Hierarchy))
    (card : Option Card) : Hierarchy :=
  let key := rarity_hierarchy_key_for_card card
  match assocGet hierarchies key with
  | some h => h
  | none =>
    match assocGet hierarchies RARITY_HIERARCHY_DEFAULT with
    | some h => h
    | none => ((hierarchies.head?).map Prod.snd).getD []

/-- The two loaded catalog indexes built by `load_cards` (`by_name` keyed by
lowercased name, `by_id` keyed by numeric id).  The claims are stated under
the precondition that the asset loaded, so the indexes are parameters. -/
structure Catalog where
  by_name : List (String × Card)
  by_id : List (Int × Card)

/-- `get_card_by_name` from `yugioh_data.py`. -/
def get_card_by_name (catalog : Catalog) (name : String) : Option Card :=
  if name = "" then none else assocGet catalog.by_name (pyLower name)

/-- `get_card_by_id` from `yugioh_data.py`. -/
def get_card_by_id (catalog : Catalog) (card_id : Int) : Option Card :=
  assocGetInt catalog.by_id card_id

/-- `_is_ocg_set_code` from `yugioh_data.py`. -/
def _is_ocg_set_code (set_code : String) : Bool :=
  let code_upper := pyUpper set_code
  if strContains code_upper "-JP" || strEndsWith code_upper "-JP" then true
  else if strStartsWith code_upper "JP" then true
  else if strContains code_upper "JPP" || strContains code_upper "JPS" then true
  else false

/-- `get_card_prints_tcg` from `yugioh_data.py`: drop prints with a falsy
set code or rarity, OCG set codes, and pull-only rarities. -/
def get_card_prints_tcg (card : Card) : List PrintRec :=
  card.card_sets.filter fun entry =>
    if decide (entry.set_code = "") || decide (entry.set_rarity = "") then false
    else if _is_ocg_set_code entry.set_code then false
    else if decide (entry.set_rarity ∈ PULL_RARITIES) then false
    else true

/-- `extract_rarities_tcg` from `yugioh_data.py`; the Python `set` is
modelled as a duplicate-free list built in first-seen order. -/
def extract_rarities_tcg (card : Card) : List String :=
  (get_card_prints_tcg card).foldl
    (fun rarities entry =>
      if entry.set_rarity = "" then rarities
      else if decide (entry.set_rarity ∈ rarities) then rarities
      else rarities ++ [entry.set_rarity])
    []

/-! ### `sort_utils.py`: canonical ordering -/

/-- `SECTION_ORDER` from `sort_utils.py`. -/
def SECTION_ORDER : List (String × Int) := [("Main", 0), ("Extra", 1), ("Side", 2)]

/-- `section_rank` from `sort_utils.py` (Lean reserves the word `section`,
so the argument is named `sectionTag`). -/
def section_rank (sectionTag : String) : Int := (assocGet SECTION_ORDER sectionTag).getD 99

/-- `_safe_casefold` from `sort_utils.py` (`value.casefold() if value else ""`;
`pyLower` models `casefold` on the ASCII strings involved). -/
def _safe_casefold (value : String) : String := if value = "" then "" else pyLower value

/-- The deck-entry fields the core reads (`deck_model.DeckEntry`); optional
text fields hold `""` when absent, as in the dataclass defaults.  The
source's `section` field is named `sectionTag` because Lean reserves the
word `section`. -/
structure DeckEntry where
  sectionTag : String
  amount : Int
  name_eng : String
  name_ger : String
  card_id : String
  set_code : String
  rarity : String
deriving DecidableEq

/-- `_lookup_card` from `sort_utils.py`: id lookup first (a `ValueError`
from `int(...)` is swallowed), then name lookup.  The `FileNotFoundError`
branch is excluded because the catalog parameter models a loaded asset. -/
def _lookup_card (catalog : Catalog) (entry : DeckEntry) : Option Card :=
  let card :=
    if entry.card_id ≠ "" then
      match pyIntOfString entry.card_id with
      | some n => get_card_by_id catalog n
      | none => none
    else none
  match card with
  | some c => some c
  | none =>
    if entry.name_eng ≠ "" then get_card_by_name catalog entry.name_eng else none

/-- `rarity_rank_for_entry` from `sort_utils.py` (the loaded hierarchy table
is a parameter in place of `load_rarity_hierarchy_main()`). -/
def rarity_rank_for_entry (hierarchies : List (String × Hierarchy))
    (entry : DeckEntry) (card_dict : Option Card) : Int :=
  dictGetInt (select_rarity_hierarchy hierarchies card_dict) entry.rarity 0

/-- The seven-component sort key tuple of `canonical_sort_key`. -/
abbrev SortKey := Int × String × String × String × Int × String × Int

/-- `canonical_sort_key` from `sort_utils.py`. -/
def canonical_sort_key (catalog : Catalog) (hierarchies : List (String × Hierarchy))
    (entry : DeckEntry) : SortKey :=
  let card_dict := _lookup_card catalog entry
  let primary_name := if entry.name_ger = "" then entry.name_eng else entry.name_ger
  (section_rank entry.sectionTag,
   _safe_casefold primary_name,
   _safe_casefold entry.name_eng,
   _safe_casefold entry.set_code,
   rarity_rank_for_entry hierarchies entry card_dict,
   _safe_casefold entry.rarity,
   entry.amount)

/-- Decidable equality test used by the lexicographic comparator. -/
def intEqB (a b : Int) : Bool := decide (a = b)

/-- Order on `Int`, as a boolean. -/
def intLeB (a b : Int) : Bool := decide (a ≤ b)

/-- Decidable equality test on strings, as a boolean. -/
def strEqB (a b : String) : Bool := decide (a = b)

/-- Lexicographic combination of an order on the first component with an
order on the rest; models Python tuple comparison. -/
def pairLeB {α β : Type} (eqa lea : α → α → Bool) (leb : β → β → Bool)
    (p q : α × β) : Bool :=
  if eqa p.1 q.1 then leb p.2 q.2 else lea p.1 q.1

/-- Python's `<=` on the seven-component key tuples. -/
def sortKeyLe : SortKey → SortKey → Bool :=
  pairLeB intEqB intLeB
    (pairLeB strEqB strLe
      (pairLeB strEqB strLe
        (pairLeB strEqB strLe
          (pairLeB intEqB intLeB
            (pairLeB strEqB strLe intLeB)))))

/-- `key(a) <= key(b)`: the ordering `sorted(entries, key=canonical_sort_key)`
sorts by. -/
def entry_le (catalog : Catalog) (hierarchies : List (String × Hierarchy))
    (a b : DeckEntry) : Bool :=
  sortKeyLe (canonical_sort_key catalog hierarchies a) (canonical_sort_key catalog hierarchies b)

/-- `canonical_sort_entries` from `sort_utils.py`; Python's `sorted` is a
stable sort by the key order, modelled by the stable `List.mergeSort`. -/
def canonical_sort_entries (catalog : Catalog) (hierarchies : List (String × Hierarchy))
    (entries : List DeckEntry) : List DeckEntry :=
  entries.mergeSort (entry_le catalog hierarchies)

/-! ### `pdf_overview.py`: upgrade classifier -/

/-- `OPTIONAL_MAX_DELTA` from `pdf_overview.py`. -/
def OPTIONAL_MAX_DELTA : Int := 5

/-- `RECOMMENDED_MIN_DELTA` from `pdf_overview.py`. -/
def RECOMMENDED_MIN_DELTA : Int := 6

/-- Python `max(...)` over the weights of a non-empty rarity list
(`0` for the unreachable empty case). -/
def bestWeightOf (hierarchy : Hierarchy) (rs : List String) : Int :=
  match rs.map (fun r => dictGetInt hierarchy r 0) with
  | [] => 0
  | w :: ws => ws.foldl max w

/-- `_split_upgrade_rarities` from `pdf_overview.py`. -/
def _split_upgrade_rarities (rarities : List String) (hierarchy : Hierarchy)
    (current_weight : Int) : List String × List String :=
  let higher_rarities :=
    rarities.filter fun r => decide (current_weight < dictGetInt hierarchy r 0)
  if higher_rarities.isEmpty then ([], [])
  else
    let best_weight := bestWeightOf hierarchy higher_rarities
    let delta := best_weight - current_weight
    if RECOMMENDED_MIN_DELTA ≤ delta then
      (higher_rarities.filter fun r =>
         decide (current_weight + RECOMMENDED_MIN_DELTA ≤ dictGetInt hierarchy r 0),
       higher_rarities.filter fun r =>
         decide (current_weight < dictGetInt hierarchy r 0) &&
           decide (dictGetInt hierarchy r 0 ≤ current_weight + OPTIONAL_MAX_DELTA))
    else ([], higher_rarities)

/-! ### `pricing/ygopro_prices.py`: normalization, cache, staleness, refresh -/

/-- The values `normalize_passcode` receives at its call sites: Python
`None`, a string, or an integer id (for which `str(raw_id)` is the decimal
representation). -/
inductive PassIn where
  | none
  | str (s : String)
  | int (n : Int)

/-- Body of `normalize_passcode` after `text = ....strip()`. -/
def normalizePasscodeText (text : String) : Option String :=
  if text = "" ∨ text = "0" then none
  else
    match pyIntOfString text with
    | none => none
    | some value => if value = 0 then none else some (toString value)

/-- `normalize_passcode` from `ygopro_prices.py`. -/
def normalize_passcode (raw_id : PassIn) : Option String :=
  match raw_id with
  | .none => none
  | .str s => normalizePasscodeText (pyStrip s)
  | .int n => normalizePasscodeText (pyStrip (toString n))

/-- One price-cache entry as a raw JSON-ish dict: the four keys the code
reads, each either absent (`none`) or holding any JSON value.  A key set to
JSON `null` behaves like an absent key in every read path, matching
`dict.get`. -/
structure RawEntry where
  name : Option JVal
  cardmarket_price : Option JVal
  updated_at : Option JVal
  last_error : Option JVal

/-- The in-memory price cache: id string to entry, unique keys in insertion
order, as a Python `dict`. -/
abbrev PriceCache := List (String × RawEntry)

/-- `cache[key] = value` on a `dict`: replace in place or append. -/
def cacheSet : PriceCache → String → RawEntry → PriceCache
  | [], key, v => [(key, v)]
  | (k, w) :: rest, key, v =>
    if k = key then (k, v) :: rest else (k, w) :: cacheSet rest key v

/-- Serialization of the optional field `k` of an entry. -/
def optField (k : String) : Option JVal → List (String × JVal)
  | some v => [(k, v)]
  | none => []

/-- JSON object written for one cache entry by `json.dump`. -/
def entryToJson (e : RawEntry) : JVal :=
  JVal.obj (optField "name" e.name ++ optField "cardmarket_price" e.cardmarket_price ++
    optField "updated_at" e.updated_at ++ optField "last_error" e.last_error)

/-- `save_price_cache_atomic` from `ygopro_prices.py`, modelled as the JSON
value the atomic write leaves on disk (temp file, flush, fsync and rename
are I/O steps that deliver exactly this serialized map). -/
def save_price_cache_atomic (cache : PriceCache) : JVal :=
  JVal.obj (cache.map fun kv => (kv.1, entryToJson kv.2))

/-- The per-entry validation loop body of `load_price_cache`: `name` and
`updated_at` must be strings, `float(price)` must succeed, and `last_error`
is kept only when it is a non-empty string. -/
def cleanPriceEntry (value : JVal) : Option RawEntry :=
  match value with
  | JVal.obj fields =>
    match assocGet fields "name", assocGet fields "updated_at" with
    | some (JVal.str n), some (JVal.str u) =>
      match pyFloatOfOpt (assocGet fields "cardmarket_price") with
      | none => none
      | some price_value =>
        some { name := some (JVal.str n),
               cardmarket_price := some (JVal.num price_value),
               updated_at := some (JVal.str u),
               last_error :=
                 match assocGet fields "last_error" with
                 | some (JVal.str e) => if e = "" then none else some (JVal.str e)
                 | _ => none }
    | _, _ => none
  | _ => none

/-- `load_price_cache` from `ygopro_prices.py`, applied to the parsed JSON
payload (a missing file or a JSON decode error yields `{}` before this
code runs; a non-dict payload yields `{}` here). -/
def load_price_cache (payload : JVal) : PriceCache :=
  match payload with
  | JVal.obj items => items.filterMap fun kv => (cleanPriceEntry kv.2).map fun e => (kv.1, e)
  | _ => []

/-- `raw in (None, "", "N/A")` from `parse_cardmarket_price`, on the JSON
scalars a parsed payload can hold (`none` is a missing dict key, Python
`None`). -/
def isPriceSentinel : Option JVal → Bool
  | Option.none => true
  | some JVal.null => true
  | some (JVal.str s) => decide (s = "") || decide (s = "N/A")
  | _ => false

/-- `parse_cardmarket_price` from `ygopro_prices.py`. -/
def parse_cardmarket_price (raw : Option JVal) : Option Rat :=
  if isPriceSentinel raw then some 0 else pyFloatOfOpt raw

/-- `error or "Request failed"` on an optional error string. -/
def errOrRequestFailed (error : Option String) : String :=
  match error with
  | some e => if e = "" then "Request failed" else e
  | none => "Request failed"

/-- `fetch_card_price_by_id` from `ygopro_prices.py`, applied to the payload
and error `_request_payload` returned (the HTTP layer is outside the model;
`_request_payload` yields either a JSON object or `None`). -/
def fetch_card_price_from_payload (payload : Option JVal) (error : Option String) :
    Option (String × Rat) × Option String :=
  match payload with
  | some (JVal.obj (f :: fs)) =>
    match assocGet (f :: fs) "data" with
    | some (JVal.arr (c :: _)) =>
      match c with
      | JVal.obj cardFields =>
        match assocGet cardFields "name" with
        | some (JVal.str nm) =>
          match assocGet cardFields "card_prices" with
          | some (JVal.arr (p :: _)) =>
            match p with
            | JVal.obj (pf :: pfs) =>
              match parse_cardmarket_price (assocGet (pf :: pfs) "cardmarket_price") with
              | some price_value => (some (nm, price_value), Option.none)
              | Option.none => (Option.none, some "JSON invalid cardmarket_price")
            | _ => (Option.none, some "JSON missing price entry")
          | _ => (Option.none, some "JSON missing card_prices")
        | _ => (Option.none, some "JSON missing name")
      | _ => (Option.none, some "JSON missing card")
    | _ => (Option.none, some "JSON missing data")
  | _ => (Option.none, some (errOrRequestFailed error))

/-- A minimal well-formed API payload of the shape `fetch_card_price_by_id`
expects (a `data` array with one card object exposing `name` and
`card_prices[0].cardmarket_price`), used to exercise the price path. -/
def mkPricePayload (nm : String) (price : JVal) : JVal :=
  JVal.obj [("data", JVal.arr [JVal.obj [("name", JVal.str nm),
    ("card_prices", JVal.arr [JVal.obj [("cardmarket_price", price)]])]])]

/-- `_parse_iso8601` from `ygopro_prices.py`.  `fromIso` models
`datetime.fromisoformat` composed with conversion to a UTC epoch second
count (naive values are assumed UTC), and is a parameter because it is a
stdlib primitive, not repository code. -/
def _parse_iso8601 (fromIso : String → Option Int) (value : String) : Option Int :=
  if value = "" then none
  else
    let text := pyStrip value
    let text := if strEndsWith text "Z" then strDropLast text ++ "+00:00" else text
    fromIso text

/-- `is_stale` from `ygopro_prices.py`; `now` is the epoch second count of
`datetime.now(timezone.utc)` and a day is 86400 seconds. -/
def is_stale (fromIso : String → Option Int) (now : Int) (entry : RawEntry)
    (ttl_days : Int) : Bool :=
  match entry.updated_at with
  | some (JVal.str updated_at) =>
    match _parse_iso8601 fromIso updated_at with
    | none => true
    | some parsed => decide (parsed + ttl_days * 86400 < now)
  | _ => true

/-- The mutable state of one `ensure_prices` refresh cycle: the cache plus
the counters the loop maintains. -/
structure CycleState where
  cache : PriceCache
  ids_requested : Nat
  ids_ok : Nat
  ids_failed : Nat
  failed_diagnostics : Nat

/-- Placeholder entry value for `Option.getD`; never read, because
`is_stale` is only consulted when the entry exists. -/
def defaultRawEntry : RawEntry :=
  { name := none, cardmarket_price := none, updated_at := none, last_error := none }

/-- The body of the `for card_id in unique_ids` loop of `ensure_prices`.
`fetch` models `fetch_card_price_by_id` for the ambient session and rate
limiter; `now_iso` is the cycle's `now_iso` timestamp string. -/
def processId (fetch : String → Option (String × Rat) × Option String)
    (fromIso : String → Option Int) (now : Int) (now_iso : String)
    (force_refresh : Bool) (ttl_days : Int) (st : CycleState) (card_id : String) :
    CycleState :=
  let entry := assocGet st.cache card_id
  if entry.isSome && !force_refresh && !(is_stale fromIso now (entry.getD defaultRawEntry) ttl_days) then
    st
  else
    let st1 := { st with ids_requested := st.ids_requested + 1 }
    match fetch card_id with
    | (some (nm, price), _) =>
      { st1 with ids_ok := st1.ids_ok + 1,
                 cache := cacheSet st1.cache card_id
                   { name := some (JVal.str nm),
                     cardmarket_price := some (JVal.num price),
                     updated_at := some (JVal.str now_iso),
                     last_error := Option.none } }
    | (Option.none, error) =>
      let st2 := { st1 with ids_failed := st1.ids_failed + 1 }
      let should_record_error := decide (st2.failed_diagnostics < 5)
      let st3 :=
        if should_record_error then
          { st2 with failed_diagnostics := st2.failed_diagnostics + 1 }
        else st2
      match entry with
      | some e =>
        let recorded := { e with last_error := some (JVal.str (errOrRequestFailed error)) }
        if should_record_error then
          { st3 with cache := cacheSet st3.cache card_id recorded }
        else st3
      | Option.none =>
        let failure_entry : RawEntry :=
          { name := some (JVal.str ""),
            cardmarket_price := some (JVal.num 0),
            updated_at := some (JVal.str now_iso),
            last_error :=
              if should_record_error then some (JVal.str (errOrRequestFailed error))
              else Option.none }
        { st3 with cache := cacheSet st3.cache card_id failure_entry }

/-- `sorted(set(valid_ids))` over the successfully normalized ids. -/
def unique_passcode_ids (raw_ids : List PassIn) : List String :=
  ((raw_ids.map normalize_passcode).reduceOption).dedup.mergeSort strLe

/-- The whole per-id loop of `ensure_prices` over a starting state. -/
def runPriceCycle (fetch : String → Option (String × Rat) × Option String)
    (fromIso : String → Option Int) (now : Int) (now_iso : String)
    (force_refresh : Bool) (ttl_days : Int) (ids : List String) (st : CycleState) :
    CycleState :=
  ids.foldl (processId fetch fromIso now now_iso force_refresh ttl_days) st

/-- `ensure_prices` from `ygopro_prices.py`, reduced to its observable
cycle effect: the final cache and loop counters.  The returned
`PriceSummary`/`print` are presentation wrappers over these counters. -/
def ensure_prices (fetch : String → Option (String × Rat) × Option String)
    (fromIso : String → Option Int) (now : Int) (now_iso : String)
    (force_refresh : Bool) (ttl_days : Int) (cache : PriceCache)
    (raw_ids : List PassIn) : CycleState :=
  runPriceCycle fetch fromIso now now_iso force_refresh ttl_days
    (unique_passcode_ids raw_ids)
    { cache := cache, ids_requested := 0, ids_ok := 0, ids_failed := 0, failed_diagnostics := 0 }

/-- The `last_error` value stored for an id, `none` when the id is absent
or the field is unset. -/
def lastErrorAt (cache : PriceCache) (card_id : String) : Option JVal :=
  match assocGet cache card_id with
  | some e => e.last_error
  | none => none

/-- Entry `e1` keeps the `name`, `cardmarket_price` and `updated_at` of
`e0` (at most `last_error` may differ). -/
abbrev FieldsPreserved (e1 e0 : RawEntry) : Prop :=
  e1.name = e0.name ∧ e1.cardmarket_price = e0.cardmarket_price ∧
    e1.updated_at = e0.updated_at

/-- Every id whose fetch fails and that `cache0` holds is still present in
`c`, with its `name`, `cardmarket_price` and `updated_at` unchanged. -/
abbrev PreservesFrom (fetch : String → Option (String × Rat) × Option String)
    (cache0 c : PriceCache) : Prop :=
  ∀ card_id e0, (fetch card_id).1 = Option.none → assocGet cache0 card_id = some e0 →
    ∃ e1, assocGet c card_id = some e1 ∧ FieldsPreserved e1 e0

/-- Modelled from the spec: the cleaning the round-trip claim (C7)
predicts, in the spec's words — drop exactly the entries with a missing or
non-string `name`/`updated_at`.  For comparison with the behaviour of
`load_price_cache` after `save_price_cache_atomic`. -/
def spec_clean_price_cache (cache : PriceCache) : PriceCache :=
  cache.filter fun kv =>
    (match kv.2.name with | some (JVal.str _) => true | _ => false) &&
    (match kv.2.updated_at with | some (JVal.str _) => true | _ => false)

/-! ## Supporting lemmas -/

/-! ### Association lists and `cacheSet` -/

theorem assocGet_cacheSet_self (c : PriceCache) (k : String) (v : RawEntry) :
    assocGet (cacheSet c k v) k = some v := by
  induction c with
  | nil => simp [cacheSet, assocGet]
  | cons kv rest ih =>
    obtain ⟨k1, w⟩ := kv
    by_cases h : k1 = k
    · simp [cacheSet, h, assocGet]
    · simp [cacheSet, h, assocGet, ih]

theorem assocGet_cacheSet_other (c : PriceCache) (k k2 : String) (v : RawEntry)
    (h : k2 ≠ k) : assocGet (cacheSet c k v) k2 = assocGet c k2 := by
  induction c with
  | nil =>
    show assocGet [(k, v)] k2 = assocGet [] k2
    simp only [assocGet]
    rw [if_neg (fun hk : k = k2 => h hk.symm)]
  | cons kv rest ih =>
    obtain ⟨k1, w⟩ := kv
    by_cases h1 : k1 = k
    · subst h1
      simp only [cacheSet, if_pos rfl, assocGet]
      rw [if_neg (fun hk : k1 = k2 => h hk.symm), if_neg (fun hk : k1 = k2 => h hk.symm)]
    · simp only [cacheSet, if_neg h1, assocGet, ih]

theorem assocGet_append {α : Type} (l1 l2 : List (String × α)) (k : String) :
    assocGet (l1 ++ l2) k =
      match assocGet l1 k with
      | some v => some v
      | none => assocGet l2 k := by
  induction l1 with
  | nil => simp [assocGet]
  | cons kv rest ih =>
    obtain ⟨k1, v1⟩ := kv
    by_cases h : k1 = k
    · simp [assocGet, h]
    · simp [assocGet, h, ih]

/-! ### The lexicographic boolean comparator -/

theorem intEqB_iff (a b : Int) : intEqB a b = true ↔ a = b := by
  simp [intEqB]

theorem strEqB_iff (a b : String) : strEqB a b = true ↔ a = b := by
  simp [strEqB]

theorem intLeB_total (a b : Int) : (intLeB a b || intLeB b a) = true := by
  simp only [intLeB, Bool.or_eq_true, decide_eq_true_eq]
  omega

theorem intLeB_trans (a b c : Int) (h1 : intLeB a b = true) (h2 : intLeB b c = true) :
    intLeB a c = true := by
  simp only [intLeB, decide_eq_true_eq] at h1 h2 ⊢
  omega

theorem intLeB_antisymm (a b : Int) (h1 : intLeB a b = true) (h2 : intLeB b a = true) :
    a = b := by
  simp only [intLeB, decide_eq_true_eq] at h1 h2
  omega

theorem charToNat_injective (a b : Char) (h : a.toNat = b.toNat) : a = b :=
  Char.eq_of_val_eq (UInt32.eq_of_val_eq (Fin.eq_of_val_eq h))

theorem listCharLe_total (a : List Char) : ∀ b, (listCharLe a b || listCharLe b a) = true := by
  induction a with
  | nil => intro b; simp [listCharLe]
  | cons x xs ih =>
    intro b
    cases b with
    | nil => simp [listCharLe]
    | cons y ys =>
      by_cases h : x = y
      · subst h
        simpa [listCharLe] using ih ys
      · have hne : x.toNat ≠ y.toNat := fun hn => h (charToNat_injective x y hn)
        simp only [listCharLe, if_neg h, if_neg (Ne.symm h), Bool.or_eq_true,
          decide_eq_true_eq]
        omega

theorem listCharLe_trans (a : List Char) :
    ∀ b c, listCharLe a b = true → listCharLe b c = true → listCharLe a c = true := by
  induction a with
  | nil => intro b c _ _; simp [listCharLe]
  | cons x xs ih =>
    intro b c h1 h2
    cases b with
    | nil => simp [listCharLe] at h1
    | cons y ys =>
      cases c with
      | nil => simp [listCharLe] at h2
      | cons z zs =>
        by_cases hxy : x = y
        · subst hxy
          by_cases hxz : x = z
          · subst hxz
            simp only [listCharLe, if_pos rfl] at h1 h2 ⊢
            exact ih ys zs h1 h2
          · simp only [listCharLe, if_pos rfl] at h1
            simp only [listCharLe, if_neg hxz] at h2 ⊢
            exact h2
        · by_cases hyz : y = z
          · subst hyz
            simp only [listCharLe, if_neg hxy] at h1 ⊢
            exact h1
          · simp only [listCharLe, if_neg hxy] at h1
            simp only [listCharLe, if_neg hyz] at h2
            simp only [decide_eq_true_eq] at h1 h2
            by_cases hxz : x = z
            · subst hxz
              omega
            · simp only [listCharLe, if_neg hxz, decide_eq_true_eq]
              omega

theorem listCharLe_antisymm (a : List Char) :
    ∀ b, listCharLe a b = true → listCharLe b a = true → a = b := by
  induction a with
  | nil =>
    intro b _ h2
    cases b with
    | nil => rfl
    | cons y ys => simp [listCharLe] at h2
  | cons x xs ih =>
    intro b h1 h2
    cases b with
    | nil => simp [listCharLe] at h1
    | cons y ys =>
      by_cases hxy : x = y
      · subst hxy
        simp only [listCharLe, if_pos rfl] at h1 h2
        rw [ih ys h1 h2]
      · simp only [listCharLe, if_neg hxy, decide_eq_true_eq] at h1
        simp only [listCharLe, if_neg (Ne.symm hxy), decide_eq_true_eq] at h2
        omega

theorem strLe_total (a b : String) : (strLe a b || strLe b a) = true :=
  listCharLe_total a.toList b.toList

theorem strLe_trans (a b c : String) (h1 : strLe a b = true) (h2 : strLe b c = true) :
    strLe a c = true :=
  listCharLe_trans a.toList b.toList c.toList h1 h2

theorem strLe_antisymm (a b : String) (h1 : strLe a b = true) (h2 : strLe b a = true) :
    a = b := by
  cases a with
  | mk la =>
    cases b with
    | mk lb => exact congrArg String.mk (listCharLe_antisymm la lb h1 h2)

theorem pairLeB_total {α β : Type} (eqa lea : α → α → Bool) (leb : β → β → Bool)
    (heq : ∀ a b, eqa a b = true ↔ a = b)
    (hatot : ∀ a b, (lea a b || lea b a) = true)
    (hbtot : ∀ x y, (leb x y || leb y x) = true) :
    ∀ p q : α × β, (pairLeB eqa lea leb p q || pairLeB eqa lea leb q p) = true := by
  rintro ⟨a, x⟩ ⟨b, y⟩
  unfold pairLeB
  by_cases h : a = b
  · subst h
    have t : eqa a a = true := (heq a a).mpr rfl
    simp only [t, if_pos rfl, if_true]
    exact hbtot x y
  · have t1 : eqa a b = false := by
      cases hv : eqa a b
      · rfl
      · exact absurd ((heq a b).mp hv) h
    have t2 : eqa b a = false := by
      cases hv : eqa b a
      · rfl
      · exact absurd ((heq b a).mp hv).symm h
    simp only [t1, t2, Bool.false_eq_true, if_false]
    exact hatot a b

theorem pairLeB_trans {α β : Type} (eqa lea : α → α → Bool) (leb : β → β → Bool)
    (heq : ∀ a b, eqa a b = true ↔ a = b)
    (hatrans : ∀ a b c, lea a b = true → lea b c = true → lea a c = true)
    (haanti : ∀ a b, lea a b = true → lea b a = true → a = b)
    (hbtrans : ∀ x y z, leb x y = true → leb y z = true → leb x z = true) :
    ∀ p q r : α × β, pairLeB eqa lea leb p q = true → pairLeB eqa lea leb q r = true →
      pairLeB eqa lea leb p r = true := by
  rintro ⟨a, x⟩ ⟨b, y⟩ ⟨c, z⟩ h1 h2
  unfold pairLeB at h1 h2 ⊢
  dsimp only at h1 h2 ⊢
  by_cases hab : a = b
  · subst hab
    have t : eqa a a = true := (heq a a).mpr rfl
    simp only [t, if_true] at h1
    by_cases hac : a = c
    · subst hac
      simp only [t, if_true] at h2 ⊢
      exact hbtrans x y z h1 h2
    · have t2 : eqa a c = false := by
        cases hv : eqa a c
        · rfl
        · exact absurd ((heq a c).mp hv) hac
      simp only [t2, Bool.false_eq_true, if_false] at h2 ⊢
      exact h2
  · have t1 : eqa a b = false := by
      cases hv : eqa a b
      · rfl
      · exact absurd ((heq a b).mp hv) hab
    simp only [t1, Bool.false_eq_true, if_false] at h1
    by_cases hbc : b = c
    · subst hbc
      simp only [t1, Bool.false_eq_true, if_false]
      exact h1
    · have t2 : eqa b c = false := by
        cases hv : eqa b c
        · rfl
        · exact absurd ((heq b c).mp hv) hbc
      simp only [t2, Bool.false_eq_true, if_false] at h2
      by_cases hac : a = c
      · subst hac
        exact absurd (haanti a b h1 h2) hab
      · have t3 : eqa a c = false := by
          cases hv : eqa a c
          · rfl
          · exact absurd ((heq a c).mp hv) hac
        simp only [t3, Bool.false_eq_true, if_false]
        exact hatrans a b c h1 h2

theorem sortKeyLe_total (p q : SortKey) : (sortKeyLe p q || sortKeyLe q p) = true := by
  unfold sortKeyLe
  exact pairLeB_total _ _ _ intEqB_iff intLeB_total
    (pairLeB_total _ _ _ strEqB_iff strLe_total
      (pairLeB_total _ _ _ strEqB_iff strLe_total
        (pairLeB_total _ _ _ strEqB_iff strLe_total
          (pairLeB_total _ _ _ intEqB_iff intLeB_total
            (pairLeB_total _ _ _ strEqB_iff strLe_total intLeB_total))))) p q

theorem sortKeyLe_trans (p q r : SortKey) (h1 : sortKeyLe p q = true)
    (h2 : sortKeyLe q r = true) : sortKeyLe p r = true := by
  unfold sortKeyLe at h1 h2 ⊢
  exact pairLeB_trans _ _ _ intEqB_iff intLeB_trans intLeB_antisymm
    (pairLeB_trans _ _ _ strEqB_iff strLe_trans strLe_antisymm
      (pairLeB_trans _ _ _ strEqB_iff strLe_trans strLe_antisymm
        (pairLeB_trans _ _ _ strEqB_iff strLe_trans strLe_antisymm
          (pairLeB_trans _ _ _ intEqB_iff intLeB_trans intLeB_antisymm
            (pairLeB_trans _ _ _ strEqB_iff strLe_trans strLe_antisymm
              intLeB_trans))))) p q r h1 h2

theorem entry_le_total (catalog : Catalog) (hierarchies : List (String × Hierarchy))
    (a b : DeckEntry) :
    (entry_le catalog hierarchies a b || entry_le catalog hierarchies b a) = true :=
  sortKeyLe_total _ _

theorem entry_le_trans (catalog : Catalog) (hierarchies : List (String × Hierarchy))
    (a b c : DeckEntry) (h1 : entry_le catalog hierarchies a b = true)
    (h2 : entry_le catalog hierarchies b c = true) :
    entry_le catalog hierarchies a c = true :=
  sortKeyLe_trans _ _ _ h1 h2

/-! ### Cache entry serialization round trip -/

theorem entryJson_get_name (n p u le : Option JVal) :
    assocGet (optField "name" n ++ optField "cardmarket_price" p ++
      optField "updated_at" u ++ optField "last_error" le) "name" = n := by
  cases n <;> cases p <;> cases u <;> cases le <;> rfl

theorem entryJson_get_price (n p u le : Option JVal) :
    assocGet (optField "name" n ++ optField "cardmarket_price" p ++
      optField "updated_at" u ++ optField "last_error" le) "cardmarket_price" = p := by
  cases n <;> cases p <;> cases u <;> cases le <;> rfl

theorem entryJson_get_updated (n p u le : Option JVal) :
    assocGet (optField "name" n ++ optField "cardmarket_price" p ++
      optField "updated_at" u ++ optField "last_error" le) "updated_at" = u := by
  cases n <;> cases p <;> cases u <;> cases le <;> rfl

theorem entryJson_get_lastError (n p u le : Option JVal) :
    assocGet (optField "name" n ++ optField "cardmarket_price" p ++
      optField "updated_at" u ++ optField "last_error" le) "last_error" = le := by
  cases n <;> cases p <;> cases u <;> cases le <;> rfl

theorem cleanPriceEntry_entryToJson (e : RawEntry) :
    cleanPriceEntry (entryToJson e) =
      (match e.name, e.updated_at with
       | some (JVal.str n), some (JVal.str u) =>
         match pyFloatOfOpt e.cardmarket_price with
         | Option.none => Option.none
         | some q =>
           some { name := some (JVal.str n), cardmarket_price := some (JVal.num q),
                  updated_at := some (JVal.str u),
                  last_error :=
                    match e.last_error with
                    | some (JVal.str s) => if s = "" then Option.none else some (JVal.str s)
                    | _ => Option.none }
       | _, _ => Option.none) := by
  obtain ⟨n, p, u, le⟩ := e
  show cleanPriceEntry (JVal.obj _) = _
  simp only [cleanPriceEntry]
  rw [entryJson_get_name n p u le, entryJson_get_updated n p u le,
    entryJson_get_price n p u le, entryJson_get_lastError n p u le]

/-! ### Membership in the extracted rarity set -/

theorem extract_foldl_mem (prints : List PrintRec) :
    ∀ (acc : List String) (r : String),
      r ∈ prints.foldl
        (fun rarities entry =>
          if entry.set_rarity = "" then rarities
          else if decide (entry.set_rarity ∈ rarities) then rarities
          else rarities ++ [entry.set_rarity]) acc →
      r ∈ acc ∨ ∃ p, p ∈ prints ∧ p.set_rarity = r := by
  induction prints with
  | nil => intro acc r h; exact Or.inl h
  | cons p ps ih =>
    intro acc r h
    rw [List.foldl_cons] at h
    rcases ih _ r h with hacc | ⟨q, hq, hr⟩
    · by_cases h1 : p.set_rarity = ""
      · rw [if_pos h1] at hacc
        exact Or.inl hacc
      · rw [if_neg h1] at hacc
        by_cases h2 : p.set_rarity ∈ acc
        · rw [if_pos (by simpa using h2)] at hacc
          exact Or.inl hacc
        · rw [if_neg (by simpa using h2)] at hacc
          rcases List.mem_append.mp hacc with h3 | h3
          · exact Or.inl h3
          · exact Or.inr ⟨p, List.mem_cons_self p ps, (List.mem_singleton.mp h3).symm⟩
    · exact Or.inr ⟨q, List.mem_cons_of_mem p hq, hr⟩

/-! ### Behaviour of one refresh step and of the whole cycle -/

section PricingLemmas

variable (fetch : String → Option (String × Rat) × Option String)
variable (fromIso : String → Option Int) (now : Int) (now_iso : String)
variable (force_refresh : Bool) (ttl_days : Int)

theorem lastErrorAt_cacheSet_self (c : PriceCache) (k : String) (v : RawEntry) :
    lastErrorAt (cacheSet c k v) k = v.last_error := by
  unfold lastErrorAt
  rw [assocGet_cacheSet_self]

theorem processId_cache_cases (st : CycleState) (card_id : String) :
    (processId fetch fromIso now now_iso force_refresh ttl_days st card_id).cache = st.cache ∨
    ∃ v, (processId fetch fromIso now now_iso force_refresh ttl_days st card_id).cache =
      cacheSet st.cache card_id v := by
  simp only [processId]
  split
  · exact Or.inl rfl
  · split
    · exact Or.inr ⟨_, rfl⟩
    · cases hd : decide (st.failed_diagnostics < 5) with
      | true =>
        simp only [hd, eq_self_iff_true, if_true]
        split
        · exact Or.inr ⟨_, rfl⟩
        · exact Or.inr ⟨_, rfl⟩
      | false =>
        simp only [hd, Bool.false_eq_true, if_false]
        split
        · exact Or.inl rfl
        · exact Or.inr ⟨_, rfl⟩

theorem processId_cache_other (st : CycleState) (card_id id2 : String) (h : id2 ≠ card_id) :
    assocGet (processId fetch fromIso now now_iso force_refresh ttl_days st card_id).cache id2 =
      assocGet st.cache id2 := by
  rcases processId_cache_cases fetch fromIso now now_iso force_refresh ttl_days st card_id with
    hc | ⟨v, hc⟩
  · rw [hc]
  · rw [hc, assocGet_cacheSet_other _ _ _ _ h]

theorem processId_preserves_entry (st : CycleState) (card_id : String) (e : RawEntry)
    (he : assocGet st.cache card_id = some e) (hf : (fetch card_id).1 = Option.none) :
    ∃ e1, assocGet (processId fetch fromIso now now_iso force_refresh ttl_days st card_id).cache
        card_id = some e1 ∧ FieldsPreserved e1 e := by
  simp only [processId]
  split
  · exact ⟨e, he, rfl, rfl, rfl⟩
  · split
    · exfalso
      rename_i heq
      rw [heq] at hf
      simp at hf
    · simp only [he]
      cases hd : decide (st.failed_diagnostics < 5) with
      | true =>
        simp only [hd, eq_self_iff_true, if_true]
        exact ⟨_, assocGet_cacheSet_self _ _ _, rfl, rfl, rfl⟩
      | false =>
        simp only [hd, Bool.false_eq_true, if_false]
        exact ⟨e, he, rfl, rfl, rfl⟩

theorem processId_placeholder (st : CycleState) (card_id : String)
    (he : assocGet st.cache card_id = Option.none) (hf : (fetch card_id).1 = Option.none) :
    ∃ le, assocGet (processId fetch fromIso now now_iso force_refresh ttl_days st card_id).cache
        card_id =
      some { name := some (JVal.str ""), cardmarket_price := some (JVal.num 0),
             updated_at := some (JVal.str now_iso), last_error := le } := by
  simp only [processId, he, Option.isSome_none, Bool.false_and, Bool.false_eq_true, if_false]
  split
  · exfalso
    rename_i heq
    rw [heq] at hf
    simp at hf
  · exact ⟨_, assocGet_cacheSet_self _ _ _⟩

theorem processId_diag_cases (st : CycleState) (card_id : String) :
    ((processId fetch fromIso now now_iso force_refresh ttl_days st card_id).failed_diagnostics =
        st.failed_diagnostics ∧
      ((lastErrorAt (processId fetch fromIso now now_iso force_refresh ttl_days st
          card_id).cache card_id).isSome = true →
        lastErrorAt (processId fetch fromIso now now_iso force_refresh ttl_days st
          card_id).cache card_id = lastErrorAt st.cache card_id)) ∨
    ((processId fetch fromIso now now_iso force_refresh ttl_days st card_id).failed_diagnostics =
        st.failed_diagnostics + 1 ∧
      st.failed_diagnostics < 5) := by
  simp only [processId]
  split
  · exact Or.inl ⟨rfl, fun _ => rfl⟩
  · split
    · refine Or.inl ⟨rfl, ?_⟩
      rw [lastErrorAt_cacheSet_self]
      intro hcontr
      simp at hcontr
    · cases hd : decide (st.failed_diagnostics < 5) with
      | true =>
        simp only [hd, eq_self_iff_true, if_true]
        split
        · exact Or.inr ⟨rfl, of_decide_eq_true hd⟩
        · exact Or.inr ⟨rfl, of_decide_eq_true hd⟩
      | false =>
        simp only [hd, Bool.false_eq_true, if_false]
        split
        · exact Or.inl ⟨rfl, fun _ => rfl⟩
        · refine Or.inl ⟨rfl, ?_⟩
          rw [lastErrorAt_cacheSet_self]
          intro hcontr
          simp at hcontr

theorem runPriceCycle_cons (st : CycleState) (a : String) (rest : List String) :
    runPriceCycle fetch fromIso now now_iso force_refresh ttl_days (a :: rest) st =
      runPriceCycle fetch fromIso now now_iso force_refresh ttl_days rest
        (processId fetch fromIso now now_iso force_refresh ttl_days st a) := rfl

theorem runPriceCycle_cache_other (ids : List String) :
    ∀ (st : CycleState) (card_id : String), card_id ∉ ids →
      assocGet (runPriceCycle fetch fromIso now now_iso force_refresh ttl_days ids st).cache
          card_id =
        assocGet st.cache card_id := by
  induction ids with
  | nil => intro st card_id _; rfl
  | cons a rest ih =>
    intro st card_id h
    have h1 : card_id ≠ a := fun hc => h (hc ▸ List.mem_cons_self a rest)
    have h2 : card_id ∉ rest := fun hc => h (List.mem_cons_of_mem a hc)
    rw [runPriceCycle_cons, ih _ card_id h2,
      processId_cache_other fetch fromIso now now_iso force_refresh ttl_days st a card_id h1]

theorem processId_preserves_from (cache0 : PriceCache) (st : CycleState) (card_id : String)
    (hinv : PreservesFrom fetch cache0 st.cache) :
    PreservesFrom fetch cache0
      (processId fetch fromIso now now_iso force_refresh ttl_days st card_id).cache := by
  intro id2 e0 hf h0
  by_cases hid : id2 = card_id
  · subst hid
    obtain ⟨e1, he1, hfp⟩ := hinv id2 e0 hf h0
    obtain ⟨e2, he2, hfp2⟩ :=
      processId_preserves_entry fetch fromIso now now_iso force_refresh ttl_days st id2 e1 he1 hf
    exact ⟨e2, he2, hfp2.1.trans hfp.1, hfp2.2.1.trans hfp.2.1, hfp2.2.2.trans hfp.2.2⟩
  · obtain ⟨e1, he1, hfp⟩ := hinv id2 e0 hf h0
    refine ⟨e1, ?_, hfp⟩
    rw [processId_cache_other fetch fromIso now now_iso force_refresh ttl_days st card_id id2 hid]
    exact he1

theorem runPriceCycle_preserves_from (cache0 : PriceCache) (ids : List String) :
    ∀ st : CycleState, PreservesFrom fetch cache0 st.cache →
      PreservesFrom fetch cache0
        (runPriceCycle fetch fromIso now now_iso force_refresh ttl_days ids st).cache := by
  induction ids with
  | nil => intro st hinv; exact hinv
  | cons a rest ih =>
    intro st hinv
    rw [runPriceCycle_cons]
    exact ih _ (processId_preserves_from fetch fromIso now now_iso force_refresh ttl_days
      cache0 st a hinv)

theorem runPriceCycle_placeholder (ids : List String) :
    ∀ (st : CycleState), ids.Nodup → ∀ card_id, card_id ∈ ids →
      (fetch card_id).1 = Option.none → assocGet st.cache card_id = Option.none →
      ∃ le, assocGet
          (runPriceCycle fetch fromIso now now_iso force_refresh ttl_days ids st).cache card_id =
        some { name := some (JVal.str ""), cardmarket_price := some (JVal.num 0),
               updated_at := some (JVal.str now_iso), last_error := le } := by
  induction ids with
  | nil => intro st _ card_id hmem; exact absurd hmem (List.not_mem_nil card_id)
  | cons a rest ih =>
    intro st hnd card_id hmem hf he
    obtain ⟨ha, hrest⟩ := List.nodup_cons.mp hnd
    rcases List.mem_cons.mp hmem with hca | hca
    · subst hca
      obtain ⟨le, hle⟩ :=
        processId_placeholder fetch fromIso now now_iso force_refresh ttl_days st card_id he hf
      refine ⟨le, ?_⟩
      rw [runPriceCycle_cons, runPriceCycle_cache_other fetch fromIso now now_iso force_refresh
        ttl_days rest _ card_id ha, hle]
    · have hid : card_id ≠ a := fun hc => ha (hc ▸ hca)
      rw [runPriceCycle_cons]
      refine ih _ hrest card_id hca hf ?_
      rw [processId_cache_other fetch fromIso now now_iso force_refresh ttl_days st a card_id hid]
      exact he

theorem runPriceCycle_error_bound (ids : List String) :
    ∀ (st : CycleState), ids.Nodup →
      ∃ rec : List String,
        st.failed_diagnostics + rec.length ≤
          (runPriceCycle fetch fromIso now now_iso force_refresh ttl_days ids
            st).failed_diagnostics ∧
        (st.failed_diagnostics ≤ 5 →
          (runPriceCycle fetch fromIso now now_iso force_refresh ttl_days ids
            st).failed_diagnostics ≤ 5) ∧
        ∀ card_id,
          (lastErrorAt (runPriceCycle fetch fromIso now now_iso force_refresh ttl_days ids
            st).cache card_id).isSome = true →
          lastErrorAt (runPriceCycle fetch fromIso now now_iso force_refresh ttl_days ids
            st).cache card_id ≠ lastErrorAt st.cache card_id →
          card_id ∈ rec := by
  induction ids with
  | nil =>
    intro st _
    exact ⟨[], by simp [runPriceCycle], fun h => h, fun card_id h1 h2 => absurd rfl h2⟩
  | cons a rest ih =>
    intro st hnd
    obtain ⟨ha, hrest⟩ := List.nodup_cons.mp hnd
    obtain ⟨rec1, hlen1, hcap1, hcov1⟩ :=
      ih (processId fetch fromIso now now_iso force_refresh ttl_days st a) hrest
    have hcacheA :
        lastErrorAt (runPriceCycle fetch fromIso now now_iso force_refresh ttl_days rest
          (processId fetch fromIso now now_iso force_refresh ttl_days st a)).cache a =
        lastErrorAt (processId fetch fromIso now now_iso force_refresh ttl_days st a).cache a := by
      unfold lastErrorAt
      rw [runPriceCycle_cache_other fetch fromIso now now_iso force_refresh ttl_days rest _ a ha]
    rcases processId_diag_cases fetch fromIso now now_iso force_refresh ttl_days st a with
      ⟨hdiag, hsame⟩ | ⟨hdiag, hlt⟩
    · refine ⟨rec1, ?_, ?_, ?_⟩
      · rw [runPriceCycle_cons]
        rw [hdiag] at hlen1
        exact hlen1
      · intro h5
        rw [runPriceCycle_cons]
        exact hcap1 (by rw [hdiag]; exact h5)
      · intro card_id h1 h2
        rw [runPriceCycle_cons] at h1 h2
        by_cases hid : card_id = a
        · subst hid
          rw [hcacheA] at h1 h2
          exact absurd (hsame h1) h2
        · have heq : lastErrorAt (processId fetch fromIso now now_iso force_refresh ttl_days
              st a).cache card_id = lastErrorAt st.cache card_id := by
            unfold lastErrorAt
            rw [processId_cache_other fetch fromIso now now_iso force_refresh ttl_days st a
              card_id hid]
          exact hcov1 card_id h1 (by rw [heq]; exact h2)
    · refine ⟨a :: rec1, ?_, ?_, ?_⟩
      · rw [runPriceCycle_cons]
        rw [hdiag] at hlen1
        simp only [List.length_cons]
        omega
      · intro _
        rw [runPriceCycle_cons]
        exact hcap1 (by rw [hdiag]; omega)
      · intro card_id h1 h2
        by_cases hid : card_id = a
        · subst hid
          exact List.mem_cons_self card_id rec1
        · rw [runPriceCycle_cons] at h1 h2
          have heq : lastErrorAt (processId fetch fromIso now now_iso force_refresh ttl_days
              st a).cache card_id = lastErrorAt st.cache card_id := by
            unfold lastErrorAt
            rw [processId_cache_other fetch fromIso now now_iso force_refresh ttl_days st a
              card_id hid]
          exact List.mem_cons_of_mem a (hcov1 card_id h1 (by rw [heq]; exact h2))

end PricingLemmas

theorem unique_passcode_ids_nodup (raw_ids : List PassIn) :
    (unique_passcode_ids raw_ids).Nodup := by
  unfold unique_passcode_ids
  exact (List.mergeSort_perm _ strLe).symm.nodup
    (List.nodup_dedup ((raw_ids.map normalize_passcode).reduceOption))

theorem normalizePasscodeText_shape (text : String) :
    normalizePasscodeText text = Option.none ∨
    ∃ n : Int, n ≠ 0 ∧ normalizePasscodeText text = some (toString n) := by
  unfold normalizePasscodeText
  split
  · exact Or.inl rfl
  · cases h : pyIntOfString text with
    | none => exact Or.inl rfl
    | some v =>
      dsimp only
      by_cases hv : v = 0
      · rw [if_pos hv]
        exact Or.inl rfl
      · rw [if_neg hv]
        exact Or.inr ⟨v, hv, rfl⟩

theorem pendulum_key_mem (lbl : String) (h : strContains lbl "pendulum" = true) :
    ∃ k, _pendulum_key_from_type lbl = some k ∧
      k ∈ ["pendulum_normal", "pendulum_ritual", "pendulum_fusion", "pendulum_synchro",
           "pendulum_xyz", "pendulum_effect"] := by
  unfold _pendulum_key_from_type
  rw [h]
  simp only [Bool.not_true, Bool.false_eq_true, if_false]
  split_ifs <;> exact ⟨_, rfl, by decide⟩

/-! ## Claim theorems -/

/-- C1 counterexample: `parse_cardmarket_price` performs no sign check, so
the raw value `-5` parses to the negative price `-5.0`, and
`fetch_card_price_by_id` returns it as a valid fetched price instead of
failing — refuting the claim that any parsed value is non-negative or the
fetch fails. -/
theorem C1_counterexample :
    parse_cardmarket_price (some (JVal.num (-5))) = some (-5) ∧
    ((-5 : Rat) < 0) ∧
    fetch_card_price_from_payload (some (mkPricePayload "Test Card" (JVal.num (-5))))
        Option.none =
      (some ("Test Card", -5), Option.none) := by
  refine ⟨by decide, by decide, by decide⟩

/-- C1 (amended): raw price `None`/`""`/`"N/A"` maps to price `0.0`; any
other raw value yields exactly `float(raw)` when that parses — with no
non-negativity check, so negative values are passed through as valid — and
`None` otherwise, in which case `fetch_card_price_by_id` fails with
`"JSON invalid cardmarket_price"`. -/
theorem C1_price_parsing_amended :
    (parse_cardmarket_price Option.none = some 0 ∧
      parse_cardmarket_price (some JVal.null) = some 0 ∧
      parse_cardmarket_price (some (JVal.str "")) = some 0 ∧
      parse_cardmarket_price (some (JVal.str "N/A")) = some 0) ∧
    (∀ raw, isPriceSentinel raw = false → parse_cardmarket_price raw = pyFloatOfOpt raw) ∧
    (∀ nm v q, parse_cardmarket_price (some v) = some q →
      fetch_card_price_from_payload (some (mkPricePayload nm v)) Option.none =
        (some (nm, q), Option.none)) ∧
    (∀ nm v, parse_cardmarket_price (some v) = Option.none →
      fetch_card_price_from_payload (some (mkPricePayload nm v)) Option.none =
        (Option.none, some "JSON invalid cardmarket_price")) := by
  refine ⟨⟨rfl, rfl, rfl, rfl⟩, ?_, ?_, ?_⟩
  · intro raw h
    simp [parse_cardmarket_price, h]
  · intro nm v q h
    have hstep : fetch_card_price_from_payload (some (mkPricePayload nm v)) Option.none =
        (match parse_cardmarket_price (some v) with
         | some price_value => (some (nm, price_value), Option.none)
         | Option.none => (Option.none, some "JSON invalid cardmarket_price")) := rfl
    rw [hstep, h]
  · intro nm v h
    have hstep : fetch_card_price_from_payload (some (mkPricePayload nm v)) Option.none =
        (match parse_cardmarket_price (some v) with
         | some price_value => (some (nm, price_value), Option.none)
         | Option.none => (Option.none, some "JSON invalid cardmarket_price")) := rfl
    rw [hstep, h]

/-- C1 witness: the amended theorem applied to the unparseable raw value
`"zzz"` — the fetch fails with the invalid-price diagnostic. -/
theorem C1_witness :
    fetch_card_price_from_payload (some (mkPricePayload "Test Card" (JVal.str "zzz")))
        Option.none =
      (Option.none, some "JSON invalid cardmarket_price") :=
  C1_price_parsing_amended.2.2.2 "Test Card" (JVal.str "zzz") (by decide)

/-- C2 counterexample: with the loaded hierarchy table ranking
`"Ultra Rare"` at `5` in the `effect_monster` table, an entry whose card
resolves neither by id nor by name still gets rarity rank `5` — not `0` —
at sort-key position 5, because the code looks the label up in the default
hierarchy instead of forcing rank 0. -/
theorem C2_counterexample :
    _lookup_card { by_name := [], by_id := [] }
        { sectionTag := "Main", amount := 1, name_eng := "", name_ger := "", card_id := "",
          set_code := "", rarity := "Ultra Rare" } = Option.none ∧
    (canonical_sort_key { by_name := [], by_id := [] }
        [("effect_monster", [("Ultra Rare", 5)])]
        { sectionTag := "Main", amount := 1, name_eng := "", name_ger := "", card_id := "",
          set_code := "", rarity := "Ultra Rare" }).2.2.2.2.1 = 5 ∧
    (5 : Int) ≠ 0 := by
  refine ⟨by decide, by decide, by decide⟩

/-- C2 (amended): for an entry whose card cannot be resolved, key position 5
is the rank of the entry's rarity label in the hierarchy selected for an
unknown card (the `effect_monster` default with its fallbacks); it is `0`
exactly when that hierarchy does not list the label. -/
theorem C2_unresolved_rank_amended (catalog : Catalog)
    (hierarchies : List (String × Hierarchy)) (entry : DeckEntry)
    (h : _lookup_card catalog entry = Option.none) :
    (canonical_sort_key catalog hierarchies entry).2.2.2.2.1 =
      dictGetInt (select_rarity_hierarchy hierarchies Option.none) entry.rarity 0 ∧
    (assocGet (select_rarity_hierarchy hierarchies Option.none) entry.rarity = Option.none →
      (canonical_sort_key catalog hierarchies entry).2.2.2.2.1 = 0) := by
  have hk : (canonical_sort_key catalog hierarchies entry).2.2.2.2.1 =
      rarity_rank_for_entry hierarchies entry (_lookup_card catalog entry) := rfl
  constructor
  · rw [hk, h]
    rfl
  · intro h2
    rw [hk, h]
    unfold rarity_rank_for_entry dictGetInt
    rw [h2]
    rfl

/-- C2 witness: the amended theorem at an empty catalog, where the
unresolved entry's rank is the default hierarchy's value for its label. -/
theorem C2_witness :
    (canonical_sort_key { by_name := [], by_id := [] }
        [("effect_monster", [("Ultra Rare", 5)])]
        { sectionTag := "Main", amount := 1, name_eng := "", name_ger := "", card_id := "",
          set_code := "", rarity := "Ultra Rare" }).2.2.2.2.1 =
      dictGetInt (select_rarity_hierarchy [("effect_monster", [("Ultra Rare", 5)])]
        Option.none) "Ultra Rare" 0 :=
  (C2_unresolved_rank_amended { by_name := [], by_id := [] }
    [("effect_monster", [("Ultra Rare", 5)])]
    { sectionTag := "Main", amount := 1, name_eng := "", name_ger := "", card_id := "",
      set_code := "", rarity := "Ultra Rare" } rfl).1

/-- C3: `_split_upgrade_rarities` returns empty/empty when no candidate is
strictly heavier than the current weight; when the heaviest candidate is at
least 6 above it, recommended is exactly the candidates at
`current_weight + 6` or more and optional exactly those in
`(current_weight, current_weight + 5]`; when the heaviest exceeds by 1..5,
recommended is empty and optional is exactly all strictly-higher
candidates. -/
theorem C3_split_upgrade_rarities (rarities : List String) (hierarchy : Hierarchy)
    (current_weight : Int) :
    (rarities.filter (fun r => decide (current_weight < dictGetInt hierarchy r 0)) = [] →
      _split_upgrade_rarities rarities hierarchy current_weight = ([], [])) ∧
    (rarities.filter (fun r => decide (current_weight < dictGetInt hierarchy r 0)) ≠ [] →
      6 ≤ bestWeightOf hierarchy
            (rarities.filter (fun r => decide (current_weight < dictGetInt hierarchy r 0))) -
          current_weight →
      _split_upgrade_rarities rarities hierarchy current_weight =
        (rarities.filter (fun r => decide (current_weight + 6 ≤ dictGetInt hierarchy r 0)),
         rarities.filter (fun r =>
           decide (current_weight < dictGetInt hierarchy r 0) &&
             decide (dictGetInt hierarchy r 0 ≤ current_weight + 5)))) ∧
    (rarities.filter (fun r => decide (current_weight < dictGetInt hierarchy r 0)) ≠ [] →
      1 ≤ bestWeightOf hierarchy
            (rarities.filter (fun r => decide (current_weight < dictGetInt hierarchy r 0))) -
          current_weight →
      bestWeightOf hierarchy
          (rarities.filter (fun r => decide (current_weight < dictGetInt hierarchy r 0))) -
        current_weight ≤ 5 →
      _split_upgrade_rarities rarities hierarchy current_weight =
        ([], rarities.filter (fun r => decide (current_weight < dictGetInt hierarchy r 0)))) := by
  refine ⟨?_, ?_, ?_⟩
  · intro h
    simp only [_split_upgrade_rarities, h, List.isEmpty_nil, if_true]
  · intro hne hdelta
    have hempty : (rarities.filter
        (fun r => decide (current_weight < dictGetInt hierarchy r 0))).isEmpty = false := by
      cases hl : rarities.filter (fun r => decide (current_weight < dictGetInt hierarchy r 0)) with
      | nil => exact absurd hl hne
      | cons a l => rfl
    simp only [_split_upgrade_rarities, RECOMMENDED_MIN_DELTA, OPTIONAL_MAX_DELTA, hempty,
      Bool.false_eq_true, if_false]
    rw [if_pos hdelta]
    have hrec : (rarities.filter
          (fun r => decide (current_weight < dictGetInt hierarchy r 0))).filter
        (fun r => decide (current_weight + 6 ≤ dictGetInt hierarchy r 0)) =
        rarities.filter (fun r => decide (current_weight + 6 ≤ dictGetInt hierarchy r 0)) := by
      rw [List.filter_filter]
      apply List.filter_congr
      intro r _
      by_cases hw : current_weight + 6 ≤ dictGetInt hierarchy r 0
      · rw [decide_eq_true hw, decide_eq_true (show current_weight < dictGetInt hierarchy r 0
          by omega)]
        rfl
      · rw [decide_eq_false hw]
        rfl
    have hopt : (rarities.filter
          (fun r => decide (current_weight < dictGetInt hierarchy r 0))).filter
        (fun r => decide (current_weight < dictGetInt hierarchy r 0) &&
          decide (dictGetInt hierarchy r 0 ≤ current_weight + 5)) =
        rarities.filter (fun r => decide (current_weight < dictGetInt hierarchy r 0) &&
          decide (dictGetInt hierarchy r 0 ≤ current_weight + 5)) := by
      rw [List.filter_filter]
      apply List.filter_congr
      intro r _
      cases h1 : decide (current_weight < dictGetInt hierarchy r 0) with
      | true => cases h2 : decide (dictGetInt hierarchy r 0 ≤ current_weight + 5) <;> rfl
      | false => cases h2 : decide (dictGetInt hierarchy r 0 ≤ current_weight + 5) <;> rfl
    rw [hrec, hopt]
  · intro hne h1 h5
    have hempty : (rarities.filter
        (fun r => decide (current_weight < dictGetInt hierarchy r 0))).isEmpty = false := by
      cases hl : rarities.filter (fun r => decide (current_weight < dictGetInt hierarchy r 0)) with
      | nil => exact absurd hl hne
      | cons a l => rfl
    simp only [_split_upgrade_rarities, RECOMMENDED_MIN_DELTA, OPTIONAL_MAX_DELTA, hempty,
      Bool.false_eq_true, if_false]
    rw [if_neg (by omega)]

/-- C3 witness: the spec's concrete scenario — hierarchy weighting Secret
Rare at 7, current weight 0, candidates Rare and Secret Rare — yields
recommended = [Secret Rare] and optional = [Rare]. -/
theorem C3_witness :
    _split_upgrade_rarities ["Rare", "Secret Rare"]
      [("Common", 0), ("Rare", 1), ("Super Rare", 2), ("Ultra Rare", 3), ("Secret Rare", 7)] 0 =
      (["Secret Rare"], ["Rare"]) :=
  (((C3_split_upgrade_rarities ["Rare", "Secret Rare"]
      [("Common", 0), ("Rare", 1), ("Super Rare", 2), ("Ultra Rare", 3), ("Secret Rare", 7)]
      0).2.1 (by decide) (by decide)).trans (by decide))

/-- C4: in a refresh cycle, every id whose fetch fails keeps its cached
`name`, price and timestamp (the entry is never deleted, at most
`last_error` changes); an id with no prior entry gets a placeholder with
price `0.0` timestamped with the cycle's `now`; and at most 5 entries have
an error diagnostic newly recorded across the whole cycle. -/
theorem C4_refresh_failure_handling
    (fetch : String → Option (String × Rat) × Option String)
    (fromIso : String → Option Int) (now : Int) (now_iso : String)
    (force_refresh : Bool) (ttl_days : Int) (cache : PriceCache) (raw_ids : List PassIn) :
    PreservesFrom fetch cache
      (ensure_prices fetch fromIso now now_iso force_refresh ttl_days cache raw_ids).cache ∧
    (∀ card_id, card_id ∈ unique_passcode_ids raw_ids → (fetch card_id).1 = Option.none →
      assocGet cache card_id = Option.none →
      ∃ le, assocGet (ensure_prices fetch fromIso now now_iso force_refresh ttl_days cache
          raw_ids).cache card_id =
        some { name := some (JVal.str ""), cardmarket_price := some (JVal.num 0),
               updated_at := some (JVal.str now_iso), last_error := le }) ∧
    (∃ recorded : List String, recorded.length ≤ 5 ∧
      ∀ card_id,
        (lastErrorAt (ensure_prices fetch fromIso now now_iso force_refresh ttl_days cache
          raw_ids).cache card_id).isSome = true →
        lastErrorAt (ensure_prices fetch fromIso now now_iso force_refresh ttl_days cache
          raw_ids).cache card_id ≠ lastErrorAt cache card_id →
        card_id ∈ recorded) := by
  have hnodup := unique_passcode_ids_nodup raw_ids
  refine ⟨?_, ?_, ?_⟩
  · exact runPriceCycle_preserves_from fetch fromIso now now_iso force_refresh ttl_days cache
      (unique_passcode_ids raw_ids) _ (fun card_id e0 _ h0 => ⟨e0, h0, rfl, rfl, rfl⟩)
  · intro card_id hmem hf he
    exact runPriceCycle_placeholder fetch fromIso now now_iso force_refresh ttl_days
      (unique_passcode_ids raw_ids) _ hnodup card_id hmem hf he
  · obtain ⟨rec, hlen, hcap, hcov⟩ := runPriceCycle_error_bound fetch fromIso now now_iso
      force_refresh ttl_days (unique_passcode_ids raw_ids) _ hnodup
    exact ⟨rec, le_trans (le_trans (Nat.le_add_left rec.length _) hlen)
      (hcap (Nat.zero_le 5)), hcov⟩

/-- C4 witness: one failing id already cached as Blue-Eyes at price 3 —
after the cycle the entry still exists with name, price and timestamp
unchanged. -/
theorem C4_witness :
    ∃ e1, assocGet (ensure_prices (fun _ => (Option.none, some "HTTP 500"))
        (fun _ => Option.none) 0 "2024-01-01T00:00:00Z" false 14
        [("7", { name := some (JVal.str "Blue-Eyes"), cardmarket_price := some (JVal.num 3),
                 updated_at := some (JVal.str "old"), last_error := Option.none })]
        [PassIn.str "7"]).cache "7" = some e1 ∧
      FieldsPreserved e1
        { name := some (JVal.str "Blue-Eyes"), cardmarket_price := some (JVal.num 3),
          updated_at := some (JVal.str "old"), last_error := Option.none } :=
  (C4_refresh_failure_handling (fun _ => (Option.none, some "HTTP 500"))
    (fun _ => Option.none) 0 "2024-01-01T00:00:00Z" false 14
    [("7", { name := some (JVal.str "Blue-Eyes"), cardmarket_price := some (JVal.num 3),
             updated_at := some (JVal.str "old"), last_error := Option.none })]
    [PassIn.str "7"]).1 "7"
    { name := some (JVal.str "Blue-Eyes"), cardmarket_price := some (JVal.num 3),
      updated_at := some (JVal.str "old"), last_error := Option.none } rfl rfl

/-- C5 counterexample: `normalize_passcode` keeps the sign, so the input
`"-5"` normalizes to the id string `"-5"`, which denotes the negative
integer `-5` — refuting the claim that every non-`None` result is the
decimal string of a positive integer. -/
theorem C5_counterexample :
    normalize_passcode (PassIn.str "-5") = some "-5" ∧
    pyIntOfString "-5" = some (-5) ∧ ((-5 : Int) < 0) := by
  refine ⟨by decide, by decide, by decide⟩

/-- C5 (amended): `normalize_passcode` never raises and returns either
`None` or the canonical decimal string of a non-zero integer (the sign is
preserved, so negative inputs yield negative ids); `"0"`, `""` and `None`
all yield `None`, `"  087 "` yields `"87"`, and non-numeric text yields
`None`. -/
theorem C5_normalize_passcode_amended :
    normalize_passcode (PassIn.str "0") = Option.none ∧
    normalize_passcode (PassIn.str "") = Option.none ∧
    normalize_passcode PassIn.none = Option.none ∧
    normalize_passcode (PassIn.str "  087 ") = some "87" ∧
    (∀ s, pyIntOfString (pyStrip s) = Option.none →
      normalize_passcode (PassIn.str s) = Option.none) ∧
    (∀ raw, normalize_passcode raw = Option.none ∨
      ∃ n : Int, n ≠ 0 ∧ normalize_passcode raw = some (toString n)) := by
  refine ⟨by decide, by decide, rfl, by decide, ?_, ?_⟩
  · intro s h
    show normalizePasscodeText (pyStrip s) = Option.none
    unfold normalizePasscodeText
    split
    · rfl
    · rw [h]
  · intro raw
    cases raw with
    | none => exact Or.inl rfl
    | str s => exact normalizePasscodeText_shape (pyStrip s)
    | int n => exact normalizePasscodeText_shape (pyStrip (toString n))

/-- C5 witness: the amended theorem's non-numeric clause applied to
`"not-a-number"`. -/
theorem C5_witness : normalize_passcode (PassIn.str "not-a-number") = Option.none :=
  C5_normalize_passcode_amended.2.2.2.2.1 "not-a-number" (by decide)

/-- C6: for every loaded catalog and hierarchy table and every entry list,
`canonical_sort_entries` returns a permutation of the input of equal
length، and sorting the result again returns it unchanged (idempotence);
the embedding is a pure function, so the input list and its entries are
not mutated. -/
theorem C6_canonical_sort (catalog : Catalog) (hierarchies : List (String × Hierarchy))
    (entries : List DeckEntry) :
    (canonical_sort_entries catalog hierarchies entries).Perm entries ∧
    (canonical_sort_entries catalog hierarchies entries).length = entries.length ∧
    canonical_sort_entries catalog hierarchies
        (canonical_sort_entries catalog hierarchies entries) =
      canonical_sort_entries catalog hierarchies entries := by
  refine ⟨List.mergeSort_perm entries (entry_le catalog hierarchies),
    List.length_mergeSort entries, ?_⟩
  unfold canonical_sort_entries
  exact List.mergeSort_of_sorted
    (List.sorted_mergeSort (entry_le_trans catalog hierarchies)
      (entry_le_total catalog hierarchies) entries)

/-- C7 counterexample: an entry with string `name` and `updated_at` but an
unparseable `cardmarket_price` (`"abc"`) is dropped by the round trip even
though the claim predicts only missing-`name`/`updated_at` entries are
dropped. -/
theorem C7_counterexample :
    load_price_cache (save_price_cache_atomic
        [("1", { name := some (JVal.str "A"), cardmarket_price := some (JVal.str "abc"),
                 updated_at := some (JVal.str "T"), last_error := Option.none })]) ≠
      spec_clean_price_cache
        [("1", { name := some (JVal.str "A"), cardmarket_price := some (JVal.str "abc"),
                 updated_at := some (JVal.str "T"), last_error := Option.none })] ∧
    load_price_cache (save_price_cache_atomic
        [("1", { name := some (JVal.str "A"), cardmarket_price := some (JVal.str "abc"),
                 updated_at := some (JVal.str "T"), last_error := Option.none })]) = [] ∧
    spec_clean_price_cache
        [("1", { name := some (JVal.str "A"), cardmarket_price := some (JVal.str "abc"),
                 updated_at := some (JVal.str "T"), last_error := Option.none })] =
      [("1", { name := some (JVal.str "A"), cardmarket_price := some (JVal.str "abc"),
               updated_at := some (JVal.str "T"), last_error := Option.none })] := by
  refine ⟨?_, rfl, rfl⟩
  intro h
  exact List.noConfusion h

/-- C7 (amended): saving then reloading a price-cache map keeps exactly the
entries whose `name` and `updated_at` are strings and whose
`cardmarket_price` parses as a float; a kept entry's price is replaced by
its parsed float value and its `last_error` survives only when it is a
non-empty string. -/
theorem C7_roundtrip_amended (cache : PriceCache) :
    load_price_cache (save_price_cache_atomic cache) =
      cache.filterMap (fun kv =>
        match kv.2.name, kv.2.updated_at with
        | some (JVal.str n), some (JVal.str u) =>
          match pyFloatOfOpt kv.2.cardmarket_price with
          | Option.none => Option.none
          | some q =>
            some (kv.1,
              { name := some (JVal.str n), cardmarket_price := some (JVal.num q),
                updated_at := some (JVal.str u),
                last_error :=
                  match kv.2.last_error with
                  | some (JVal.str s) => if s = "" then Option.none else some (JVal.str s)
                  | _ => Option.none })
        | _, _ => Option.none) := by
  rw [show load_price_cache (save_price_cache_atomic cache) =
      (cache.map fun kv => (kv.1, entryToJson kv.2)).filterMap
        (fun kv => (cleanPriceEntry kv.2).map fun e => (kv.1, e)) from rfl]
  rw [List.filterMap_map]
  apply List.filterMap_congr
  intro kv _
  show (cleanPriceEntry (entryToJson kv.2)).map (fun e => (kv.1, e)) = _
  rw [cleanPriceEntry_entryToJson]
  rcases kv with ⟨k, e⟩
  rcases e with ⟨n, p, u, le⟩
  dsimp only
  cases n with
  | none => rfl
  | some v =>
    cases v with
    | null => rfl
    | bool b => rfl
    | num q => rfl
    | arr xs => rfl
    | obj fs => rfl
    | str ns =>
      cases u with
      | none => rfl
      | some w =>
        cases w with
        | null => rfl
        | bool b => rfl
        | num q => rfl
        | arr xs => rfl
        | obj fs => rfl
        | str us =>
          cases hq : pyFloatOfOpt p with
          | none => rfl
          | some q => rfl

/-- C8: hierarchy classification resolves pendulum variants before their
base type — every card with an absent or unrecognized frame type whose
lowered type label contains "pendulum" classifies to a `pendulum_*` key,
a "Pendulum Effect Monster" classifies to `pendulum_effect` (not
`effect_monster`), and a missing card classifies to the `effect_monster`
default. -/
theorem C8_pendulum_classification :
    rarity_hierarchy_key_for_card Option.none = "effect_monster" ∧
    (∀ card : Card,
      (pyLower card.frameType = "" ∨
        assocGet FRAME_TYPE_TO_HIERARCHY_KEY (pyLower card.frameType) = Option.none) →
      strContains (pyLower card.type) "pendulum" = true →
      rarity_hierarchy_key_for_card (some card) ∈
        ["pendulum_normal", "pendulum_ritual", "pendulum_fusion", "pendulum_synchro",
         "pendulum_xyz", "pendulum_effect"]) ∧
    rarity_hierarchy_key_for_card
        (some { frameType := "", type := "Pendulum Effect Monster", card_sets := [] }) =
      "pendulum_effect" ∧
    ("pendulum_effect" : String) ≠ "effect_monster" := by
  refine ⟨rfl, ?_, by decide, by decide⟩
  intro card hframe hpend
  simp only [rarity_hierarchy_key_for_card]
  have hnone : (if pyLower card.frameType ≠ "" then
      assocGet FRAME_TYPE_TO_HIERARCHY_KEY (pyLower card.frameType) else Option.none) =
      Option.none := by
    rcases hframe with h | h
    · rw [if_neg (by simp [h])]
    · split
      · exact h
      · rfl
  rw [hnone]
  obtain ⟨k, hk, hmem⟩ := pendulum_key_mem (pyLower card.type) hpend
  have hk2 : _key_from_type_label (pyLower card.type) = some k := by
    unfold _key_from_type_label
    rw [hk]
  rw [hk2]
  exact hmem

/-- C8 witness: a card with an unrecognized frame type and an
"XYZ Pendulum Effect Monster" type label classifies to a pendulum key. -/
theorem C8_witness :
    rarity_hierarchy_key_for_card
        (some { frameType := "weird", type := "XYZ Pendulum Effect Monster",
                card_sets := [] }) ∈
      ["pendulum_normal", "pendulum_ritual", "pendulum_fusion", "pendulum_synchro",
       "pendulum_xyz", "pendulum_effect"] :=
  C8_pendulum_classification.2.1
    { frameType := "weird", type := "XYZ Pendulum Effect Monster", card_sets := [] }
    (Or.inr (by decide)) (by decide)

/-- C9: the TCG print filter keeps no print whose set code matches the OCG
heuristics and none whose rarity is pull-only, and every rarity in the
extracted rarity set comes from a kept print (hence is not pull-only). -/
theorem C9_print_filtering (card : Card) :
    (∀ p, p ∈ get_card_prints_tcg card →
      _is_ocg_set_code p.set_code = false ∧ p.set_rarity ∉ PULL_RARITIES) ∧
    (∀ r, r ∈ extract_rarities_tcg card →
      r ∉ PULL_RARITIES ∧ ∃ p, p ∈ get_card_prints_tcg card ∧ p.set_rarity = r) := by
  have hmain : ∀ p, p ∈ get_card_prints_tcg card →
      _is_ocg_set_code p.set_code = false ∧ p.set_rarity ∉ PULL_RARITIES := by
    intro p hp
    unfold get_card_prints_tcg at hp
    obtain ⟨hmem, hcond⟩ := List.mem_filter.mp hp
    by_cases h1 : (decide (p.set_code = "") || decide (p.set_rarity = "")) = true
    · rw [if_pos h1] at hcond
      simp at hcond
    · rw [if_neg h1] at hcond
      by_cases h2 : _is_ocg_set_code p.set_code = true
      · rw [if_pos h2] at hcond
        simp at hcond
      · by_cases h3 : decide (p.set_rarity ∈ PULL_RARITIES) = true
        · rw [if_neg h2, if_pos h3] at hcond
          simp at hcond
        · exact ⟨by simpa using h2, by simpa using h3⟩
  refine ⟨hmain, ?_⟩
  intro r hr
  have hex : r ∈ ([] : List String) ∨
      ∃ p, p ∈ get_card_prints_tcg card ∧ p.set_rarity = r := by
    apply extract_foldl_mem
    unfold extract_rarities_tcg at hr
    exact hr
  rcases hex with h0 | ⟨p, hp, hpr⟩
  · exact absurd h0 (List.not_mem_nil r)
  · obtain ⟨_, hpull⟩ := hmain p hp
    exact ⟨hpr ▸ hpull, ⟨p, hp, hpr⟩⟩

/-- C9 witness: on a card carrying one TCG print, one OCG print and one
Short Print, the kept print `LOB-001 / Rare` is neither OCG nor
pull-only. -/
theorem C9_witness :
    _is_ocg_set_code
        ({ set_code := "LOB-001", set_rarity := "Rare" } : PrintRec).set_code = false ∧
    ({ set_code := "LOB-001", set_rarity := "Rare" } : PrintRec).set_rarity ∉ PULL_RARITIES :=
  (C9_print_filtering
      { frameType := "effect", type := "Effect Monster",
        card_sets := [{ set_code := "LOB-001", set_rarity := "Rare" },
                      { set_code := "ABC-JP01", set_rarity := "Secret Rare" },
                      { set_code := "LOB-002", set_rarity := "Short Print" }] }).1
    { set_code := "LOB-001", set_rarity := "Rare" } (by decide)

/-- C10: a cache entry whose `updated_at` is absent, not a string, or not
parseable as an ISO-8601 timestamp (after the `Z`-suffix rewrite) is stale
for every TTL - such entries are always eligible for refresh. -/
theorem C10_bad_timestamp_is_stale (fromIso : String → Option Int) (now : Int)
    (ttl_days : Int) (entry : RawEntry)
    (h : ∀ s, entry.updated_at = some (JVal.str s) →
      _parse_iso8601 fromIso s = Option.none) :
    is_stale fromIso now entry ttl_days = true := by
  unfold is_stale
  cases hu : entry.updated_at with
  | none => rfl
  | some v =>
    cases v with
    | str s =>
      dsimp only
      rw [h s hu]
    | null => rfl
    | bool b => rfl
    | num q => rfl
    | arr xs => rfl
    | obj fs => rfl

/-- C10 witness: an entry dated "not-a-date" is stale under a parser that
rejects it, for TTL 14. -/
theorem C10_witness :
    is_stale (fun _ => Option.none) 0
      { name := Option.none, cardmarket_price := Option.none,
        updated_at := some (JVal.str "not-a-date"), last_error := Option.none } 14 = true :=
  C10_bad_timestamp_is_stale (fun _ => Option.none) 0 14
    { name := Option.none, cardmarket_price := Option.none,
      updated_at := some (JVal.str "not-a-date"), last_error := Option.none }
    (fun s h => by
      injection h with h1
      injection h1 with h2
      subst h2
      rfl)

end YGO
